import Mathlib

/-!
Verification development for the A2A streaming message-relay layer of the
repository: the SSE text extractor of `invoke_agent`
(agentic_client_a2a.py), the concatenated-envelope splitter
`parse_streaming_json` (blogpost_server_a2a.py), the two-stage sequential
workflow, and the inbound message-part extraction helpers.

The Python code is shallowly embedded: JSON values become an inductive
type, the external `json.loads` becomes an explicit parse-oracle parameter
`parse : String -> Option Json`, Python string operations (`strip`,
`replace`, `split`, `in`, the `re.findall` scan used as a last resort) are
modelled as executable functions over `List Char`, and code that can raise
uncaught Python exceptions returns `Except`.
-/

/-! ## Characters and Python string primitives -/

/-- The left curly brace character (written via its code point). -/
def lbrace : Char := Char.ofNat 123

/-- The right curly brace character (written via its code point). -/
def rbrace : Char := Char.ofNat 125

/-- The vertical bar character used by the splitter sentinel. -/
def pipeC : Char := '|'

/-- The single-quote character used by the Python repr of strings. -/
def squote : Char := Char.ofNat 39

/-- Python whitespace for `str.strip` / the regex class `\s` (space, tab,
newline, carriage return, vertical tab, form feed). -/
def isPySpace (c : Char) : Bool :=
  c == ' ' || c == '\t' || c == '\n' || c == '\r' ||
  c == Char.ofNat 11 || c == Char.ofNat 12

/-- Python `str.strip()` on a character list. -/
def pyStripL (cs : List Char) : List Char :=
  ((cs.dropWhile isPySpace).reverse.dropWhile isPySpace).reverse

/-- Python `str.strip()`. -/
def pyStrip (s : String) : String := String.mk (pyStripL s.data)

/-- Decidable list-prefix test, used to model `str.startswith` and
substring search. -/
def isPrefixL : List Char → List Char → Bool
  | [], _ => true
  | _ :: _, [] => false
  | p :: ps, c :: cs => p == c && isPrefixL ps cs

/-- Occurrence test for a pattern anywhere in a character list; models the
Python `in` operator on strings. -/
def containsL (pat : List Char) : List Char → Bool
  | [] => isPrefixL pat []
  | c :: cs => isPrefixL pat (c :: cs) || containsL pat cs

/-- Python `pat in s` for strings. -/
def strContains (s pat : String) : Bool := containsL pat.data s.data

/-- Python `s.strip().startswith(brace)` where brace is the left curly
brace, the shape heuristic of the client extractor. -/
def startsLbrace (s : String) : Bool :=
  isPrefixL [lbrace] (pyStripL s.data)

/-! ## JSON model

`Json` models the values returned by `json.loads`: objects are
association lists (the repository feeds it objects with distinct keys, so
first-match lookup agrees with the Python dict). Numbers are modelled as
integers; no claim involves fractional number values. -/

inductive Json where
  | null : Json
  | bool : Bool → Json
  | num : Int → Json
  | str : String → Json
  | arr : List Json → Json
  | obj : List (String × Json) → Json

/-- First-match association-list lookup, the model of Python dict access
on a parsed JSON object. -/
def lookupField (fields : List (String × Json)) (k : String) : Option Json :=
  match fields with
  | [] => none
  | (k2, v) :: rest => if k2 = k then some v else lookupField rest k

/-- Errors raised by the embedded Python fragments that the surrounding
code does not catch. -/
inductive PyError where
  | attributeError : PyError
  | typeError : PyError
deriving DecidableEq, Repr

/-- Python `x.get(k, default)`: succeeds only when `x` is a dict,
otherwise raises `AttributeError`. -/
def pyGet (j : Json) (k : String) (default : Json) : Except PyError Json :=
  match j with
  | .obj fields => .ok ((lookupField fields k).getD default)
  | _ => .error .attributeError

/-- Python iteration `for part in x`: lists yield elements, strings yield
one-character strings, dicts yield their keys, and anything else raises
`TypeError`. -/
def pyIter : Json → Except PyError (List Json)
  | .arr xs => .ok xs
  | .str s => .ok (s.data.map fun c => .str c.toString)
  | .obj kvs => .ok (kvs.map fun kv => .str kv.1)
  | _ => .error .typeError

mutual
/-- Python `repr` of a parsed JSON value. String escaping inside nested
reprs is not reproduced (no claim evaluates `str` on a container). -/
def pyRepr : Json → String
  | .null => "None"
  | .bool true => "True"
  | .bool false => "False"
  | .num n => toString n
  | .str s => squote.toString ++ s ++ squote.toString
  | .arr xs => "[" ++ pyReprList xs ++ "]"
  | .obj kvs => lbrace.toString ++ pyReprFields kvs ++ rbrace.toString

/-- Comma-separated reprs of list elements. -/
def pyReprList : List Json → String
  | [] => ""
  | [x] => pyRepr x
  | x :: y :: xs => pyRepr x ++ ", " ++ pyReprList (y :: xs)

/-- Comma-separated reprs of dict entries. -/
def pyReprFields : List (String × Json) → String
  | [] => ""
  | [(k, v)] => squote.toString ++ k ++ squote.toString ++ ": " ++ pyRepr v
  | (k, v) :: kv2 :: kvs =>
      squote.toString ++ k ++ squote.toString ++ ": " ++ pyRepr v ++ ", " ++
      pyReprFields (kv2 :: kvs)
end

/-- Python `str(x)` applied to a parsed JSON value: a string is returned
verbatim, every other value renders as its repr. -/
def pyStr : Json → String
  | .str s => s
  | j => pyRepr j

/-! ## Client-side SSE extraction (agentic_client_a2a.py, invoke_agent)

The per-event extraction of lines 125-180: parse the payload with
`json.loads` (the oracle `parse`), walk the statusUpdate envelope or the
direct content envelope, and on parse failure fall back to treating the
payload as plain text unless it looks like a JSON object. -/

/-- Loop body of lines 149-156: a content element contributes
`str(part[text-key])` only when the element is a dict with key "text"
whose stripped text is non-empty. -/
def partText (part : Json) : Option String :=
  match part with
  | .obj kvs =>
    match lookupField kvs "text" with
    | some t => if pyStrip (pyStr t) = "" then none else some (pyStr t)
    | none => none
  | _ => none

/-- Lines 140-156: descend `statusUpdate.status.message.content` with
`.get` defaults at each level, iterate the content, and collect the
non-blank text parts. -/
def statusUpdateChunks (su : Json) : Except PyError (List String) :=
  match pyGet su "status" (.obj []) with
  | .error e => .error e
  | .ok status =>
    match pyGet status "message" (.obj []) with
    | .error e => .error e
    | .ok message =>
      match pyGet message "content" (.arr []) with
      | .error e => .error e
      | .ok content =>
        match pyIter content with
        | .error e => .error e
        | .ok parts => .ok (parts.filterMap partText)

/-- Lines 139-166: a dict with key "statusUpdate" goes through the
envelope descent; otherwise a dict with top-level key "content" is
iterated directly; any other parsed value contributes nothing. -/
def extractParsed (data : Json) : Except PyError (List String) :=
  match data with
  | .obj fields =>
    match lookupField fields "statusUpdate" with
    | some su => statusUpdateChunks su
    | none =>
      match lookupField fields "content" with
      | some content =>
        match pyIter content with
        | .error e => .error e
        | .ok parts => .ok (parts.filterMap partText)
      | none => .ok []
  | _ => .ok []

/-- Lines 125-180, the chunks one payload string appends: on
`json.loads` success delegate to `extractParsed`; on failure (lines
168-180) append the payload verbatim only when it is non-empty and its
stripped form does not start with a left brace. -/
def extractChunks (parse : String → Option Json) (p : String) :
    Except PyError (List String) :=
  match parse p with
  | some data => extractParsed data
  | none =>
    if p != "" && !(startsLbrace p) then .ok [p] else .ok []

/-- The extractor contract of the spec, `extract(payload) -> (text,
matched)`: the text is the concatenation of the chunks the source
appends for this payload, and `matched` records that the payload either
parsed as JSON or was emitted as literal text (a parse failure that
looks like a JSON object is discarded with `matched = false`). -/
def extract (parse : String → Option Json) (p : String) :
    Except PyError (String × Bool) :=
  (extractChunks parse p).map fun cs =>
    (String.join cs, (parse p).isSome || !cs.isEmpty)

/-- Lines 112-123: one SSE line contributes chunks only when it carries
the `data: ` prefix and the stripped payload is neither empty nor the
`[DONE]` sentinel. -/
def processLine (parse : String → Option Json) (line : String) :
    Except PyError (List String) :=
  if isPrefixL "data: ".data line.data then
    let data_str := String.mk (line.data.drop 6)
    if pyStrip data_str = "[DONE]" || pyStrip data_str = "" then .ok []
    else extractChunks parse data_str
  else .ok []

/-- The chunk accumulation of the streaming loop over the delivered
lines, in order; an uncaught Python error aborts the loop. -/
def collectChunks (parse : String → Option Json) : List String →
    Except PyError (List String)
  | [] => .ok []
  | line :: rest =>
    match processLine parse line with
    | .error e => .error e
    | .ok cs =>
      match collectChunks parse rest with
      | .error e => .error e
      | .ok more => .ok (cs ++ more)

/-- Failure modes of one `invoke_agent` call. `emptyResult` models the
raised `Exception("No content received from agent")`, `transportError`
the raised `Exception("Stream error: ...")`, and `runtime` an uncaught
Python exception escaping the extraction code. -/
inductive AgentError where
  | emptyResult : AgentError
  | transportError : AgentError
  | runtime : PyError → AgentError
deriving DecidableEq, Repr

/-- Lines 112-200 of `invoke_agent` after a successful (2xx) response:
`lines` are the SSE lines delivered before the stream ended and
`readError` tells whether the iteration ended in `httpx.ReadError`
instead of a normal close. On a normal close the joined and stripped
chunks are returned unless empty (lines 182-192); on a read error the
chunks collected so far are returned when there is at least one,
otherwise the transport failure is raised (lines 194-200). -/
def invoke_agent (parse : String → Option Json) (lines : List String)
    (readError : Bool) : Except AgentError String :=
  match collectChunks parse lines with
  | .error e => .error (.runtime e)
  | .ok chunks =>
    if readError then
      if chunks.isEmpty then .error .transportError
      else .ok (pyStrip (String.join chunks))
    else
      let result := pyStrip (String.join chunks)
      if result = "" then .error .emptyResult else .ok result

/-! ## Server-side concatenated-envelope parsing
(blogpost_server_a2a.py, parse_streaming_json, lines 245-320) -/

/-- Loop body of lines 289-293: in `parse_streaming_json` a content
element contributes `str(part[text-key])` whenever the element is a dict
with key "text" — with no check that the text is non-blank. -/
def partTextNoStrip (part : Json) : Option String :=
  match part with
  | .obj kvs =>
    match lookupField kvs "text" with
    | some t => some (pyStr t)
    | none => none
  | _ => none

/-- Lines 284-293: the statusUpdate descent of `parse_streaming_json`,
identical to the client descent except that text parts are appended
unconditionally. -/
def statusUpdateChunksNoStrip (su : Json) : Except PyError (List String) :=
  match pyGet su "status" (.obj []) with
  | .error e => .error e
  | .ok status =>
    match pyGet status "message" (.obj []) with
    | .error e => .error e
    | .ok msg =>
      match pyGet msg "content" (.arr []) with
      | .error e => .error e
      | .ok content =>
        match pyIter content with
        | .error e => .error e
        | .ok parts => .ok (parts.filterMap partTextNoStrip)

/-- Lines 277-298, one split candidate: `json.loads` failures and any
exception inside the descent are caught by the blanket `except` and the
candidate is skipped; only a dict with key "statusUpdate" contributes
chunks. -/
def candChunks (parse : String → Option Json) (json_str : String) :
    List String :=
  match parse json_str with
  | none => []
  | some data =>
    match data with
    | .obj fields =>
      match lookupField fields "statusUpdate" with
      | some su =>
        match statusUpdateChunksNoStrip su with
        | .ok cs => cs
        | .error _ => []
      | none => []
    | _ => []

/-- Line 274, first half: Python
`research_content.replace(brace-pair, brace-pipes)` — every occurrence of
a right brace immediately followed by a left brace is rewritten to keep
the right brace, insert three pipes, and keep the left brace; the scan is
left-to-right and non-overlapping exactly as `str.replace`. -/
def replaceBrace : List Char → List Char
  | [] => []
  | [c] => [c]
  | c :: c2 :: rest =>
    if c == rbrace && c2 == lbrace then
      rbrace :: pipeC :: pipeC :: pipeC :: lbrace :: replaceBrace rest
    else c :: replaceBrace (c2 :: rest)

/-- Line 274, second half: Python `split` on the three-pipe sentinel,
leftmost non-overlapping occurrences, keeping empty pieces. -/
def splitPipesAux (acc : List Char) : List Char → List (List Char)
  | [] => [acc.reverse]
  | [a] => [acc.reverse ++ [a]]
  | [a, b] => [acc.reverse ++ [a, b]]
  | a :: b :: c :: rest =>
    if a == pipeC && b == pipeC && c == pipeC then
      acc.reverse :: splitPipesAux [] rest
    else splitPipesAux (a :: acc) (b :: c :: rest)

/-- Python `s.split(three-pipes)`. -/
def splitTriplePipe (cs : List Char) : List (List Char) := splitPipesAux [] cs

/-- Line 274 as a whole: the candidate JSON strings recovered from the
blob. -/
def splitCandidates (blob : String) : List String :=
  (splitTriplePipe (replaceBrace blob.data)).map String.mk

/-- Lines 277-298 as a whole: the chunks of all candidates, in order. -/
def candidateChunks (parse : String → Option Json) (blob : String) :
    List String :=
  ((splitCandidates blob).map (candChunks parse)).flatten

/-- One attempted match of the pattern
`quote t e x t quote colon \s* quote ([^quote]+) quote` at the head of
the character list: on success, the captured group and the characters
after the match. -/
def matchTextAt : List Char → Option (String × List Char)
  | '"' :: 't' :: 'e' :: 'x' :: 't' :: '"' :: ':' :: rest =>
    let rest2 := rest.dropWhile isPySpace
    match rest2 with
    | '"' :: rest3 =>
      match rest3.takeWhile (fun c => c != '"'),
            rest3.dropWhile (fun c => c != '"') with
      | [], _ => none
      | cap, '"' :: rest5 => some (String.mk cap, rest5)
      | _, _ => none
    | _ => none
  | _ => none

/-- Scanner loop of `re.findall`: try the pattern at each position,
left-to-right and non-overlapping. The fuel starts at the list length
and every step consumes at least one character, so it never runs out. -/
def findallAux : Nat → List Char → List String
  | 0, _ => []
  | _ + 1, [] => []
  | fuel + 1, c :: cs =>
    match matchTextAt (c :: cs) with
    | some (cap, rest) => cap :: findallAux fuel rest
    | none => findallAux fuel cs

/-- Line 311: `re.findall` of the text-field pattern over the whole
blob. -/
def findallText (s : String) : List String := findallAux s.data.length s.data

/-- Line 320: the sentinel error string of the last-resort branch. -/
def extractionErrorMsg : String :=
  "ERROR: Unable to extract research content from message. Please provide research text directly."

/-- Lines 245-320, `parse_streaming_json`: return the blob unchanged
unless it contains the literal substring "statusUpdate"; otherwise split
at brace boundaries, extract per candidate, and join-and-strip the
chunks; with zero chunks fall back to the regex scan joined by single
spaces, and failing that return the sentinel error string. -/
def parse_streaming_json (parse : String → Option Json)
    (research_content : String) : String :=
  if !(strContains research_content "statusUpdate") then research_content
  else
    let parsed_chunks := candidateChunks parse research_content
    if !parsed_chunks.isEmpty then pyStrip (String.join parsed_chunks)
    else
      let text_matches := findallText research_content
      if !text_matches.isEmpty then String.intercalate " " text_matches
      else extractionErrorMsg

/-! ## Inbound message-part extraction
(deepserach_server_a2a.py lines 98-117 and 296-305,
blogpost_server_a2a.py lines 504-513)

A message part resolves, by the `getattr` probes of the source, to a text
part (`part.root.kind == "text"` with the text of `part.root.text`), a
content part (the part has a `content` attribute; its `str()` value is
carried here), or an unrecognized part. -/

inductive MsgPart where
  | textPart : String → MsgPart
  | contentPart : String → MsgPart
  | other : MsgPart
deriving DecidableEq, Repr

/-- deepserach_server_a2a.py lines 98-117, `extract_query_from_message`:
concatenate the contribution of every part in order (`+=`), then strip
the result. -/
def extract_query_from_message (parts : List MsgPart) : String :=
  pyStrip (parts.foldl (fun q part =>
    match part with
    | .textPart t => q ++ t
    | .contentPart c => q ++ c
    | .other => q) "")

/-- deepserach_server_a2a.py lines 296-305, the inline extraction of the
deepsearch agent handler: each matching part overwrites the query
(`query = ...`), and the result is not stripped. -/
def deepsearch_handler_query (parts : List MsgPart) : String :=
  parts.foldl (fun q part =>
    match part with
    | .textPart t => t
    | .contentPart c => c
    | .other => q) ""

/-- blogpost_server_a2a.py lines 504-513, the inline extraction of the
blogpost generator agent: each matching part is appended (`+=`), and the
result is not stripped. -/
def blogpost_handler_content (parts : List MsgPart) : String :=
  parts.foldl (fun q part =>
    match part with
    | .textPart t => q ++ t
    | .contentPart c => q ++ c
    | .other => q) ""

/-! ## Two-stage sequential workflow
(agentic_client_a2a.py, sequential_workflow_a2a, lines 204-296) -/

/-- Outcome of one run of the sequential workflow: either the generated
blog post, or the failure of the research stage (lines 254-256 print the
error and return before the blogpost client is ever created), or the
failure of the blog stage. -/
inductive WorkflowOutcome where
  | completed : String → WorkflowOutcome
  | researchFailed : AgentError → WorkflowOutcome
  | blogFailed : AgentError → WorkflowOutcome
deriving DecidableEq, Repr

/-- Lines 216-219: the entered topic is stripped and replaced by the
default when blank. -/
def effectiveTopic (rawTopic : String) : String :=
  if pyStrip rawTopic = "" then "The future of sustainable energy technologies"
  else pyStrip rawTopic

/-- Lines 204-296, the control flow of `sequential_workflow_a2a` with the
two `invoke_agent` calls abstracted as stage functions: stage 1 is invoked
on the effective topic; on failure the workflow returns at line 256 and
stage 2 is never invoked; otherwise stage 2 is invoked on the research
content, and its failure returns at line 292. -/
def sequential_workflow_a2a
    (researchStage blogStage : String → Except AgentError String)
    (rawTopic : String) : WorkflowOutcome :=
  match researchStage (effectiveTopic rawTopic) with
  | .error e => .researchFailed e
  | .ok research_content =>
    match blogStage research_content with
    | .error e => .blogFailed e
    | .ok blog_post => .completed blog_post

/-! ## Spec-side definitions and concrete material for the claims -/

/-- Modelled from the claim wording of C2: a content element contributes
the Python str of its "text" value exactly when it is a dict with key
"text" whose trimmed text is non-empty. Stated independently of the
source-side `partText` so the two can be compared. -/
def specPartText (part : Json) : Option String :=
  match part with
  | .obj kvs =>
    match lookupField kvs "text" with
    | some t => if pyStrip (pyStr t) = "" then none else some (pyStr t)
    | none => none
  | _ => none

/-- Modelled from the claim wording of C2: the content list reached by
descending `status.message.content` from the statusUpdate value, treating
every missing intermediate key as an empty object/list; `none` when a
value that is present is not of the stated type (the claim covers
StatusEnvelope shapes, where each present level is an object and the
content is a list). -/
def specContentList (su : Json) : Option (List Json) :=
  match su with
  | .obj sf =>
    match (lookupField sf "status").getD (.obj []) with
    | .obj stf =>
      match (lookupField stf "message").getD (.obj []) with
      | .obj mf =>
        match (lookupField mf "content").getD (.arr []) with
        | .arr parts => some parts
        | _ => none
      | _ => none
    | _ => none
  | _ => none

/-- Absence of an adjacent right-brace/left-brace pair — the exact
occurrence pattern rewritten by `replaceBrace`. -/
def brAdjFree : List Char → Bool
  | [] => true
  | [_] => true
  | c :: c2 :: rest => !(c == rbrace && c2 == lbrace) && brAdjFree (c2 :: rest)

/-- Absence of three consecutive pipe characters — the split sentinel of
`splitTriplePipe`. -/
def triplePipeFree : List Char → Bool
  | a :: b :: c :: rest =>
    !(a == pipeC && b == pipeC && c == pipeC) && triplePipeFree (b :: c :: rest)
  | _ => true

/-- The pieces interleaved with the three-pipe sentinel: the image of a
junction-only blob under the brace-pipe rewrite. -/
def intercalatePipes : List (List Char) → List Char
  | [] => []
  | [p] => p
  | p :: q :: rest => p ++ pipeC :: pipeC :: pipeC :: intercalatePipes (q :: rest)

/-- A StatusEnvelope value carrying a single text, as `json.loads`
returns it for a well-formed serialized envelope. -/
def mkEnvJson (t : String) : Json :=
  .obj [("statusUpdate", .obj [("status", .obj [("message",
    .obj [("content", .arr [.obj [("text", .str t)]])])])])]

/-- A canonical serialized StatusEnvelope string carrying one text. -/
def mkEnvStr (t : String) : String :=
  "\x7b\"statusUpdate\":\x7b\"status\":\x7b\"message\":\x7b\"content\":[\x7b\"text\":\"" ++
    t ++ "\"\x7d]\x7d\x7d\x7d\x7d"

/-- Well-formedness of one serialized envelope string for the splitter
round trip: it starts with a left brace, ends with a right brace,
contains no adjacent brace pair and no three consecutive pipes, and
contains the literal key "statusUpdate". -/
def envStrOk (s : String) : Prop :=
  s.data.head? = some lbrace ∧ s.data.getLast? = some rbrace ∧
  brAdjFree s.data = true ∧ triplePipeFree s.data = true ∧
  strContains s "statusUpdate" = true

/-- One item of a concatenated-envelope round trip: a well-formed
envelope string that the JSON parser maps to a StatusEnvelope carrying
exactly the text of the item. -/
def envItemOk (parse : String → Option Json) (item : String × String) : Prop :=
  envStrOk item.1 ∧ parse item.1 = some (mkEnvJson item.2)

/-- A parse oracle on which every payload fails JSON parsing. -/
def noParse : String → Option Json := fun _ => none

/-- Concrete statusUpdate value with two text parts, for the C2 witness. -/
def c2su : Json :=
  .obj [("status", .obj [("message", .obj [("content",
    .arr [.obj [("text", Json.str "a")], .obj [("text", Json.str "b")]])])])]

/-- Parse oracle mapping one concrete payload to the C2 witness envelope. -/
def c2parse : String → Option Json :=
  fun s => if s = "payload2" then some (.obj [("statusUpdate", c2su)]) else none

/-- Parse oracle for the C3 counterexample: honest about `json.loads` on
the single well-formed envelope string carrying the text space-a. -/
def c3parse : String → Option Json :=
  fun s => if s = mkEnvStr " a" then some (mkEnvJson " a") else none

/-- Parse oracle for the C3 witness: honest about `json.loads` on the
two well-formed envelope strings carrying "foo" and "bar". -/
def c3wparse : String → Option Json :=
  fun s =>
    if s = mkEnvStr "foo" then some (mkEnvJson "foo")
    else if s = mkEnvStr "bar" then some (mkEnvJson "bar")
    else none

/-- Blob of the C5 counterexample: one StatusEnvelope whose content list
carries the texts "a", three spaces, and "b". -/
def c5blob : String :=
  "\x7b\"statusUpdate\":\x7b\"status\":\x7b\"message\":\x7b\"content\":[\x7b\"text\":\"a\"\x7d,\x7b\"text\":\"   \"\x7d,\x7b\"text\":\"b\"\x7d]\x7d\x7d\x7d\x7d"

/-- The parsed value of `c5blob`. -/
def c5json : Json :=
  .obj [("statusUpdate", .obj [("status", .obj [("message",
    .obj [("content", .arr [.obj [("text", .str "a")],
      .obj [("text", .str "   ")], .obj [("text", .str "b")]])])])])]

/-- Parse oracle for the C5 counterexample, honest about `json.loads` on
`c5blob`. -/
def c5parse : String → Option Json :=
  fun s => if s = c5blob then some c5json else none

/-! ## Helper lemmas -/

/-- Joining a cons is appending the head to the join of the tail. -/
theorem strJoin_cons (t : String) (ts : List String) :
    String.join (t :: ts) = t ++ String.join ts := by
  rw [String.join_eq, String.join_eq]; rfl

/-- String append is associative. -/
theorem strAppend_assoc (a b c : String) : a ++ b ++ c = a ++ (b ++ c) := by
  show String.mk ((a.data ++ b.data) ++ c.data) =
    String.mk (a.data ++ (b.data ++ c.data))
  rw [List.append_assoc]

/-- The characters of an appended string. -/
theorem strData_append (a b : String) : (a ++ b).data = a.data ++ b.data := rfl

/-- The characters of a joined list of strings. -/
theorem strJoin_data (l : List String) :
    (String.join l).data = (l.map String.data).flatten := by
  rw [String.join_eq]

/-- Last element with fallback, one cons step. -/
theorem getLastD_cons2 {α : Type} (a : α) (l : List α) (d : α) :
    (a :: l).getLastD d = l.getLastD a := by
  cases l <;> simp [List.getLastD]

/-- The overwrite fold of the deepsearch handler keeps the last text. -/
theorem dsq_aux (ts : List String) : ∀ init : String,
    (ts.map MsgPart.textPart).foldl (fun q part =>
      match part with
      | MsgPart.textPart t => t
      | MsgPart.contentPart c => c
      | MsgPart.other => q) init = ts.getLastD init := by
  induction ts with
  | nil => intro init; rfl
  | cons t ts ih => intro init; rw [getLastD_cons2]; exact ih t

/-- The append fold of the blogpost handler concatenates all texts. -/
theorem bh_aux (ts : List String) : ∀ init : String,
    (ts.map MsgPart.textPart).foldl (fun q part =>
      match part with
      | MsgPart.textPart t => q ++ t
      | MsgPart.contentPart c => q ++ c
      | MsgPart.other => q) init = init ++ String.join ts := by
  induction ts with
  | nil => intro init; show init = init ++ ""; rw [String.append_empty]
  | cons t ts ih =>
    intro init
    show (ts.map MsgPart.textPart).foldl _ (init ++ t) = init ++ String.join (t :: ts)
    rw [ih (init ++ t), strJoin_cons, strAppend_assoc]

/-- A prefix of a list is a prefix of any right extension. -/
theorem isPrefixL_append (pat : List Char) :
    ∀ a b : List Char, isPrefixL pat a = true → isPrefixL pat (a ++ b) = true := by
  induction pat with
  | nil => intro a b _; rfl
  | cons p ps ih =>
    intro a b h
    cases a with
    | nil => exact absurd h (by simp [isPrefixL])
    | cons c cs =>
      rw [isPrefixL] at h
      rcases Bool.and_eq_true_iff.mp h with ⟨hpc, htail⟩
      show isPrefixL (p :: ps) (c :: (cs ++ b)) = true
      rw [isPrefixL, hpc, ih cs b htail]
      rfl

/-- An occurrence in a list is an occurrence in any right extension. -/
theorem containsL_append_left (pat : List Char) :
    ∀ a b : List Char, containsL pat a = true → containsL pat (a ++ b) = true := by
  intro a
  induction a with
  | nil =>
    intro b h
    have hpat : pat = [] := by
      cases pat with
      | nil => rfl
      | cons p ps => exact absurd h (by simp [containsL, isPrefixL])
    subst hpat
    cases b with
    | nil => rfl
    | cons c cs => simp [containsL, isPrefixL]
  | cons c cs ih =>
    intro b h
    rw [containsL] at h
    show containsL pat (c :: (cs ++ b)) = true
    rw [containsL]
    rcases Bool.or_eq_true_iff.mp h with hpre | hrest
    · have hx := isPrefixL_append pat (c :: cs) b hpre
      rw [List.cons_append] at hx
      rw [hx]
      rfl
    · rw [ih b hrest, Bool.or_true]

/-- The brace rewrite passes over a head that is not a right brace. -/
theorem replaceBrace_cons_of_ne (c : Char) (z : List Char)
    (h : (c == rbrace) = false) : replaceBrace (c :: z) = c :: replaceBrace z := by
  cases z with
  | nil => rfl
  | cons d z' => simp [replaceBrace, h]

/-- Without an adjacent brace pair the brace rewrite is the identity. -/
theorem replaceBrace_id (p : List Char) (h : brAdjFree p = true) :
    replaceBrace p = p := by
  induction p with
  | nil => rfl
  | cons c cs ih =>
    cases cs with
    | nil => rfl
    | cons c2 rest =>
      rw [brAdjFree] at h
      rcases Bool.and_eq_true_iff.mp h with ⟨hc, htail⟩
      rw [Bool.not_eq_eq_eq_not, Bool.not_true] at hc
      simp only [replaceBrace, hc]
      rw [if_neg (by simp [hc])]
      rw [ih htail]

/-- The brace rewrite on a clean piece followed by a left-brace opener:
the single junction pair becomes the pipe sentinel. -/
theorem replaceBrace_junction (p : List Char) (hfree : brAdjFree p = true)
    (hlast : p.getLast? = some rbrace) :
    ∀ q : List Char, q.head? = some lbrace →
      replaceBrace (p ++ q) =
        p.dropLast ++ rbrace :: pipeC :: pipeC :: pipeC :: replaceBrace q := by
  induction p with
  | nil => simp at hlast
  | cons c cs ih =>
    intro q hq
    obtain ⟨q', rfl⟩ : ∃ q', q = lbrace :: q' := by
      cases q with
      | nil => simp at hq
      | cons x q' => exact ⟨q', by injection hq with h; rw [h]⟩
    cases cs with
    | nil =>
      have hc : c = rbrace := by
        simp [List.getLast?] at hlast; exact hlast
      subst hc
      show replaceBrace (rbrace :: lbrace :: q') = _
      rw [replaceBrace_cons_of_ne lbrace q' (by decide)]
      simp [replaceBrace]
    | cons c2 rest =>
      rw [brAdjFree] at hfree
      rcases Bool.and_eq_true_iff.mp hfree with ⟨hcond, htail⟩
      rw [Bool.not_eq_eq_eq_not, Bool.not_true] at hcond
      have hstep : replaceBrace (c :: c2 :: (rest ++ lbrace :: q')) =
          c :: replaceBrace (c2 :: (rest ++ lbrace :: q')) := by
        simp only [replaceBrace, hcond]
        rw [if_neg (by simp [hcond])]
      have hlast2 : (c2 :: rest).getLast? = some rbrace := by
        rw [← List.getLast?_cons_cons (a := c)]; exact hlast
      have hrec := ih htail hlast2 (lbrace :: q') rfl
      calc replaceBrace ((c :: c2 :: rest) ++ lbrace :: q')
      _ = c :: replaceBrace ((c2 :: rest) ++ lbrace :: q') := hstep
      _ = c :: ((c2 :: rest).dropLast ++
            rbrace :: pipeC :: pipeC :: pipeC :: replaceBrace (lbrace :: q')) := by
            rw [hrec]
      _ = (c :: c2 :: rest).dropLast ++
            rbrace :: pipeC :: pipeC :: pipeC :: replaceBrace (lbrace :: q') := by
            simp [List.dropLast]

/-- The brace rewrite of a junction-only concatenation of clean pieces is
the pieces interleaved with the pipe sentinel. -/
theorem replaceBrace_flatten (ps : List (List Char))
    (h : ∀ p ∈ ps, p.head? = some lbrace ∧ p.getLast? = some rbrace ∧
      brAdjFree p = true) :
    ps ≠ [] → replaceBrace ps.flatten = intercalatePipes ps := by
  induction ps with
  | nil => intro hne; exact absurd rfl hne
  | cons p rest ih =>
    intro _
    obtain ⟨hhead, hlast, hfree⟩ := h p (List.mem_cons_self p rest)
    cases rest with
    | nil =>
      show replaceBrace (p ++ []) = p
      rw [List.append_nil]
      exact replaceBrace_id p hfree
    | cons r rest' =>
      obtain ⟨hrhead, _, _⟩ :=
        h r (List.mem_cons_of_mem p (List.mem_cons_self r rest'))
      have hqhead : ((r :: rest').flatten).head? = some lbrace := by
        obtain ⟨r', rfl⟩ : ∃ r', r = lbrace :: r' := by
          cases r with
          | nil => simp at hrhead
          | cons x r' => exact ⟨r', by injection hrhead with hx; rw [hx]⟩
        rfl
      have hrec := ih (fun q hq => h q (List.mem_cons_of_mem p hq)) (by simp)
      calc replaceBrace ((p :: r :: rest').flatten)
      _ = replaceBrace (p ++ (r :: rest').flatten) := rfl
      _ = p.dropLast ++ rbrace :: pipeC :: pipeC :: pipeC ::
            replaceBrace ((r :: rest').flatten) :=
            replaceBrace_junction p hfree hlast _ hqhead
      _ = p.dropLast ++ [rbrace] ++ pipeC :: pipeC :: pipeC ::
            intercalatePipes (r :: rest') := by rw [hrec]; simp
      _ = p ++ pipeC :: pipeC :: pipeC :: intercalatePipes (r :: rest') := by
            rw [List.dropLast_append_getLast? rbrace (by rw [hlast]; rfl)]
      _ = intercalatePipes (p :: r :: rest') := rfl

/-- Splitting a sentinel-free list returns it whole. -/
theorem splitPipesAux_noTriple (cs : List Char) (h : triplePipeFree cs = true) :
    ∀ acc, splitPipesAux acc cs = [acc.reverse ++ cs] := by
  induction cs with
  | nil => intro acc; simp [splitPipesAux]
  | cons a cs ih =>
    intro acc
    cases cs with
    | nil => simp [splitPipesAux]
    | cons b cs2 =>
      cases cs2 with
      | nil => simp [splitPipesAux]
      | cons c rest =>
        rw [triplePipeFree] at h
        rcases Bool.and_eq_true_iff.mp h with ⟨hcond, htail⟩
        rw [Bool.not_eq_eq_eq_not, Bool.not_true] at hcond
        show splitPipesAux acc (a :: b :: c :: rest) = _
        rw [splitPipesAux, if_neg (by simp [hcond])]
        rw [ih htail (a :: acc)]
        simp

/-- Splitting a sentinel-free piece (ending in a right brace) followed by
the sentinel emits the piece and continues after the sentinel. -/
theorem splitPipesAux_junction (p : List Char) (hfree : triplePipeFree p = true)
    (hlast : p.getLast? = some rbrace) :
    ∀ acc rest, splitPipesAux acc (p ++ pipeC :: pipeC :: pipeC :: rest) =
      (acc.reverse ++ p) :: splitPipesAux [] rest := by
  induction p with
  | nil => simp at hlast
  | cons x p' ih =>
    intro acc rest
    cases p' with
    | nil =>
      have hx : x = rbrace := by simp [List.getLast?] at hlast; exact hlast
      subst hx
      show splitPipesAux acc (rbrace :: pipeC :: pipeC :: pipeC :: rest) = _
      rw [splitPipesAux, if_neg (by decide)]
      rw [splitPipesAux, if_pos (by decide)]
      simp
    | cons y p'' =>
      have hlast2 : (y :: p'').getLast? = some rbrace := by
        rw [← List.getLast?_cons_cons (a := x)]; exact hlast
      cases p'' with
      | nil =>
        have hy : y = rbrace := by simp [List.getLast?] at hlast2; exact hlast2
        subst hy
        show splitPipesAux acc
          (x :: rbrace :: pipeC :: pipeC :: pipeC :: rest) = _
        rw [splitPipesAux, if_neg (by simp; intro _; decide)]
        have heq := ih (by rfl) hlast2 (x :: acc) rest
        rw [show ([rbrace] ++ pipeC :: pipeC :: pipeC :: rest) =
          (rbrace :: pipeC :: pipeC :: pipeC :: rest) from rfl] at heq
        rw [heq]
        simp
      | cons z p3 =>
        rw [triplePipeFree] at hfree
        rcases Bool.and_eq_true_iff.mp hfree with ⟨hcond, htail⟩
        rw [Bool.not_eq_eq_eq_not, Bool.not_true] at hcond
        show splitPipesAux acc
          (x :: y :: z :: (p3 ++ pipeC :: pipeC :: pipeC :: rest)) = _
        rw [splitPipesAux, if_neg (by simp_all)]
        have hrec := ih htail hlast2 (x :: acc) rest
        rw [show (y :: z :: (p3 ++ pipeC :: pipeC :: pipeC :: rest)) =
          ((y :: z :: p3) ++ pipeC :: pipeC :: pipeC :: rest) from rfl]
        rw [hrec]
        simp

/-- Splitting the interleaving of clean pieces recovers the pieces. -/
theorem splitTriplePipe_intercalate (ps : List (List Char))
    (h : ∀ p ∈ ps, triplePipeFree p = true ∧ p.getLast? = some rbrace) :
    ps ≠ [] → splitTriplePipe (intercalatePipes ps) = ps := by
  induction ps with
  | nil => intro hne; exact absurd rfl hne
  | cons p rest ih =>
    intro _
    obtain ⟨hfree, hlast⟩ := h p (List.mem_cons_self p rest)
    cases rest with
    | nil =>
      show splitPipesAux [] p = [p]
      rw [splitPipesAux_noTriple p hfree []]
      rfl
    | cons r rest' =>
      have hrec := ih (fun q hq => h q (List.mem_cons_of_mem p hq)) (by simp)
      show splitPipesAux []
        (p ++ pipeC :: pipeC :: pipeC :: intercalatePipes (r :: rest')) = _
      rw [splitPipesAux_junction p hfree hlast [] (intercalatePipes (r :: rest'))]
      rw [show splitPipesAux [] (intercalatePipes (r :: rest')) =
        splitTriplePipe (intercalatePipes (r :: rest')) from rfl]
      rw [hrec]
      rfl

/-- A candidate that parses to a single-text StatusEnvelope contributes
exactly its text. -/
theorem candChunks_env (parse : String → Option Json) (s t : String)
    (h : parse s = some (mkEnvJson t)) : candChunks parse s = [t] := by
  simp [candChunks, h, mkEnvJson, lookupField, statusUpdateChunksNoStrip,
    pyGet, pyIter, partTextNoStrip, pyStr]

/-- Flattening singleton images is mapping. -/
theorem flatten_map_singleton {α β : Type} (f : α → β) (l : List α) :
    (l.map (fun x => [f x])).flatten = l.map f := by
  induction l with
  | nil => rfl
  | cons x xs ih => simp [ih]

/-- The split of a junction-only concatenation of well-formed envelope
strings recovers exactly those strings. -/
theorem splitCandidates_concat (items : List (String × String))
    (hne : items ≠ []) (h : ∀ item ∈ items, envStrOk item.1) :
    splitCandidates (String.join (items.map Prod.fst)) = items.map Prod.fst := by
  have hdata : (String.join (items.map Prod.fst)).data =
      (items.map (fun item => item.1.data)).flatten := by
    rw [strJoin_data, List.map_map]
    rfl
  have hprops : ∀ p ∈ items.map (fun item => item.1.data),
      p.head? = some lbrace ∧ p.getLast? = some rbrace ∧ brAdjFree p = true := by
    intro p hp
    obtain ⟨item, hitem, rfl⟩ := List.mem_map.mp hp
    obtain ⟨h1, h2, h3, _, _⟩ := h item hitem
    exact ⟨h1, h2, h3⟩
  have hprops2 : ∀ p ∈ items.map (fun item => item.1.data),
      triplePipeFree p = true ∧ p.getLast? = some rbrace := by
    intro p hp
    obtain ⟨item, hitem, rfl⟩ := List.mem_map.mp hp
    obtain ⟨_, h2, _, h4, _⟩ := h item hitem
    exact ⟨h4, h2⟩
  have hne2 : items.map (fun item => item.1.data) ≠ [] := by
    simpa using hne
  unfold splitCandidates
  rw [hdata, replaceBrace_flatten _ hprops hne2,
    splitTriplePipe_intercalate _ hprops2 hne2, List.map_map]
  exact List.map_congr_left (fun item _ => rfl)

/-- The source-side statusUpdate descent agrees with the spec-side
content list whenever the latter is defined. -/
theorem statusUpdateChunks_of_specContentList (su : Json) (parts : List Json)
    (h : specContentList su = some parts) :
    statusUpdateChunks su = .ok (parts.filterMap specPartText) := by
  unfold specContentList at h
  split at h
  next sf =>
    split at h
    next stf heq1 =>
      split at h
      next mf heq2 =>
        split at h
        next parts2 heq3 =>
          injection h with h
          subst h
          simp [statusUpdateChunks, pyGet, heq1, heq2, heq3, pyIter]
          rfl
        next => exact absurd h (by simp)
      next => exact absurd h (by simp)
    next => exact absurd h (by simp)
  next => exact absurd h (by simp)

/-! ## Claim theorems -/

/-- Claim C1: for every SSE payload that fails JSON parsing and is not
blank (the event reader filters blank payloads before extraction), the
extractor emits the payload verbatim as matched literal text when its
stripped form does not start with a left brace, and discards it as the
pair of the empty string and false when it does. -/
theorem C1_parse_failure_extraction (parse : String → Option Json) (p : String)
    (hfail : parse p = none) (hne : pyStrip p ≠ "") :
    extract parse p =
      .ok (if startsLbrace p then (("" : String), false) else (p, true)) := by
  have hpne : p ≠ "" := fun h => hne (by rw [h]; rfl)
  by_cases hsb : startsLbrace p
  · simp [extract, extractChunks, hfail, hsb, Except.map, String.join]
  · simp [extract, extractChunks, hfail, hsb, hpne, Except.map, String.join]

/-- Witness for C1 at the concrete non-JSON payload "hello". -/
theorem C1_parse_failure_extraction_witness :
    pyStrip "hello" ≠ "" ∧ extract noParse "hello" = .ok ("hello", true) :=
  ⟨by decide,
   (C1_parse_failure_extraction noParse "hello" rfl (by decide)).trans rfl⟩

/-- Claim C2: a payload that parses to a JSON object with top-level key
statusUpdate is extracted by descending status.message.content, each
missing intermediate key defaulting to an empty object/list; every
content element that is a dict with key "text" and non-blank text
contributes its text in list order, and the payload counts as matched. -/
theorem C2_status_envelope_extraction (parse : String → Option Json)
    (p : String) (fields : List (String × Json)) (su : Json) (parts : List Json)
    (hp : parse p = some (.obj fields))
    (hsu : lookupField fields "statusUpdate" = some su)
    (hct : specContentList su = some parts) :
    extract parse p = .ok (String.join (parts.filterMap specPartText), true) := by
  have hb := statusUpdateChunks_of_specContentList su parts hct
  simp [extract, extractChunks, hp, extractParsed, hsu, hb, Except.map]

/-- Witness for C2: the content list with texts "a" and "b" extracts to
"ab" with the payload matched, and an envelope with every intermediate
key missing extracts to the empty string without error. -/
theorem C2_status_envelope_extraction_witness :
    extract c2parse "payload2" = .ok ("ab", true) ∧
    extract (fun _ => some (.obj [("statusUpdate", .obj [])])) "x" =
      .ok ("", true) :=
  ⟨(C2_status_envelope_extraction c2parse "payload2" [("statusUpdate", c2su)]
      c2su [.obj [("text", Json.str "a")], .obj [("text", Json.str "b")]]
      rfl rfl rfl).trans rfl,
   (C2_status_envelope_extraction (fun _ => some (.obj [("statusUpdate", .obj [])]))
      "x" [("statusUpdate", .obj [])] (.obj []) [] rfl rfl rfl).trans rfl⟩

/-- Claim C3 as stated is false: a single well-formed StatusEnvelope
carrying the text space-a comes back as "a", because
parse_streaming_json strips the joined result, so the concatenation of
the carried texts is not returned verbatim. -/
theorem C3_roundtrip_counterexample :
    parse_streaming_json c3parse (mkEnvStr " a") = "a" ∧ "a" ≠ " a" :=
  ⟨by decide, by decide⟩

/-- Claim C3 amended: for one or more well-formed StatusEnvelope strings
(each starting with a left brace, ending with a right brace, containing
the literal key statusUpdate and free of adjacent brace pairs and of
three consecutive pipes) that parse to envelopes carrying texts, the
splitter recovers every envelope from the separator-free concatenation
and parse_streaming_json returns the concatenation of the carried texts
in order, trimmed of leading and trailing whitespace. -/
theorem C3_roundtrip_amended (parse : String → Option Json)
    (item0 : String × String) (rest : List (String × String))
    (hall : ∀ item ∈ item0 :: rest, envItemOk parse item) :
    parse_streaming_json parse (String.join ((item0 :: rest).map Prod.fst)) =
      pyStrip (String.join ((item0 :: rest).map Prod.snd)) := by
  have hc0 : strContains item0.1 "statusUpdate" = true :=
    ((hall item0 (List.mem_cons_self _ _)).1).2.2.2.2
  have hcontains :
      strContains (String.join ((item0 :: rest).map Prod.fst))
        "statusUpdate" = true := by
    unfold strContains at hc0 ⊢
    have hdata : (String.join ((item0 :: rest).map Prod.fst)).data =
        item0.1.data ++ (String.join (rest.map Prod.fst)).data := by
      rw [show ((item0 :: rest).map Prod.fst) = item0.1 :: rest.map Prod.fst
        from rfl, strJoin_cons]
      rfl
    rw [hdata]
    exact containsL_append_left _ _ _ hc0
  have hsplit : splitCandidates (String.join ((item0 :: rest).map Prod.fst)) =
      (item0 :: rest).map Prod.fst :=
    splitCandidates_concat (item0 :: rest) (by simp)
      (fun item hitem => (hall item hitem).1)
  have hchunks :
      candidateChunks parse (String.join ((item0 :: rest).map Prod.fst)) =
        (item0 :: rest).map Prod.snd := by
    unfold candidateChunks
    rw [hsplit, List.map_map]
    have hmap : (item0 :: rest).map (candChunks parse ∘ Prod.fst) =
        (item0 :: rest).map (fun item => [item.2]) :=
      List.map_congr_left (fun item hitem =>
        candChunks_env parse item.1 item.2 (hall item hitem).2)
    rw [hmap, flatten_map_singleton]
  simp only [List.map_cons] at hcontains hchunks ⊢
  simp [parse_streaming_json, hcontains, hchunks]

/-- Witness for the amended C3: two envelopes carrying "foo" and "bar",
concatenated with no separator, parse back to "foobar". -/
theorem C3_roundtrip_amended_witness :
    parse_streaming_json c3wparse
      (String.join [mkEnvStr "foo", mkEnvStr "bar"]) = "foobar" := by
  have hall : ∀ item ∈ [(mkEnvStr "foo", "foo"), (mkEnvStr "bar", "bar")],
      envItemOk c3wparse item := by
    intro item hitem
    simp only [List.mem_cons, List.not_mem_nil, or_false] at hitem
    rcases hitem with rfl | rfl
    · exact ⟨⟨by decide, by decide, by decide, by decide, by decide⟩, rfl⟩
    · exact ⟨⟨by decide, by decide, by decide, by decide, by decide⟩, rfl⟩
  exact (C3_roundtrip_amended c3wparse (mkEnvStr "foo", "foo")
    [(mkEnvStr "bar", "bar")] hall).trans (by decide)

/-- Claim C4: when the split candidates of a blob containing the
statusUpdate marker yield zero text chunks, parse_streaming_json falls
back to the regex scan over the whole original blob, returning the
matched values joined with single spaces, and when that scan matches
nothing it returns exactly the sentinel error string — never raw
protocol JSON. -/
theorem C4_fallback_ladder (parse : String → Option Json) (blob : String)
    (hsu : strContains blob "statusUpdate" = true)
    (hzero : candidateChunks parse blob = []) :
    parse_streaming_json parse blob =
      (if !(findallText blob).isEmpty then
        String.intercalate " " (findallText blob)
       else extractionErrorMsg) := by
  simp [parse_streaming_json, hsu, hzero]

/-- Witness for C4: a marker-only blob falls through to the sentinel,
and a blob with one text field yields that value. -/
theorem C4_fallback_ladder_witness :
    parse_streaming_json noParse "statusUpdate" = extractionErrorMsg ∧
    parse_streaming_json noParse "statusUpdate \"text\": \"hi\"" = "hi" :=
  ⟨(C4_fallback_ladder noParse "statusUpdate" (by decide) (by decide)).trans rfl,
   (C4_fallback_ladder noParse "statusUpdate \"text\": \"hi\"" (by decide)
      (by decide)).trans rfl⟩

/-- Claim C5 as stated is false: parse_streaming_json keeps a
whitespace-only text part, so an envelope whose content list carries the
texts "a", three spaces, and "b" yields "a   b" rather than "ab". -/
theorem C5_whitespace_counterexample :
    parse_streaming_json c5parse c5blob = "a   b" ∧ "a   b" ≠ "ab" :=
  ⟨by decide, by decide⟩

/-- Claim C5 amended: the streaming client extraction in invoke_agent
drops a content element whose text strips to the empty string, while the
per-element extraction of parse_streaming_json contributes the text of
every dict element with key "text" unconditionally, whitespace-only
texts included. -/
theorem C5_whitespace_amended (kvs : List (String × Json)) (t : Json)
    (ht : lookupField kvs "text" = some t) :
    (pyStrip (pyStr t) = "" → partText (.obj kvs) = none)
    ∧ partTextNoStrip (.obj kvs) = some (pyStr t) := by
  constructor
  · intro hblank; simp [partText, ht, hblank]
  · simp [partTextNoStrip, ht]

/-- Witness for the amended C5 at a three-space text part. -/
theorem C5_whitespace_amended_witness :
    partText (.obj [("text", Json.str "   ")]) = none
    ∧ partTextNoStrip (.obj [("text", Json.str "   ")]) = some "   " := by
  have h := C5_whitespace_amended [("text", Json.str "   ")] (.str "   ") rfl
  exact ⟨h.1 (by decide), h.2.trans rfl⟩

/-- Claim C6: invoke_agent finalizes by joining the accumulated chunks
with no separator and stripping both ends; a normally completed stream
whose chunks strip to nothing fails with the empty-result error instead
of returning an empty string, and a single chunk of x surrounded by
spaces returns the bare x. -/
theorem C6_finalize_empty_result (parse : String → Option Json)
    (lines chunks : List String)
    (h : collectChunks parse lines = .ok chunks) :
    invoke_agent parse lines false =
      (if pyStrip (String.join chunks) = "" then .error .emptyResult
       else .ok (pyStrip (String.join chunks)))
    ∧ (chunks = [] → invoke_agent parse lines false = .error .emptyResult)
    ∧ (chunks = ["  x  "] → invoke_agent parse lines false = .ok "x") := by
  refine ⟨?_, ?_, ?_⟩
  · simp [invoke_agent, h]
  · intro hnil; subst hnil; simp [invoke_agent, h]; rfl
  · intro hx; subst hx; simp [invoke_agent, h]; rfl

/-- Witness for C6: one padded chunk returns trimmed text; an empty
stream fails with the empty-result error. -/
theorem C6_finalize_empty_result_witness :
    invoke_agent noParse ["data:   x  "] false = .ok "x" ∧
    invoke_agent noParse [] false = .error .emptyResult :=
  ⟨(C6_finalize_empty_result noParse ["data:   x  "] ["  x  "] rfl).2.2 rfl,
   (C6_finalize_empty_result noParse [] [] rfl).2.1 rfl⟩

/-- Claim C7: when the stream read errors after at least one chunk was
accumulated, invoke_agent returns the stripped join of what it has (soft
completion); a read error with zero chunks fails with the transport
error. -/
theorem C7_partial_stream_recovery (parse : String → Option Json)
    (lines chunks : List String)
    (h : collectChunks parse lines = .ok chunks) :
    (chunks ≠ [] →
      invoke_agent parse lines true = .ok (pyStrip (String.join chunks)))
    ∧ (chunks = [] → invoke_agent parse lines true = .error .transportError) := by
  constructor
  · intro hne; simp [invoke_agent, h, hne]
  · intro hnil; subst hnil; simp [invoke_agent, h]

/-- Witness for C7: the end-to-end scenario of the spec — the connection
closes after the fragment "partial " was accumulated and invoke returns
the trimmed "partial"; with nothing accumulated it is a transport
error. -/
theorem C7_partial_stream_recovery_witness :
    invoke_agent noParse ["data: partial "] true = .ok "partial" ∧
    invoke_agent noParse [] true = .error .transportError :=
  ⟨((C7_partial_stream_recovery noParse ["data: partial "] ["partial "]
      rfl).1 (by decide)).trans rfl,
   (C7_partial_stream_recovery noParse [] [] rfl).2 rfl⟩

/-- Claim C8: when the research stage fails with any error, the
sequential workflow reports a stage-1 failure carrying that error, and
its outcome does not depend on the blog stage function — stage 2 is
never invoked. -/
theorem C8_stage1_failure_aborts
    (researchStage blogStage blogStage2 : String → Except AgentError String)
    (rawTopic : String) (e : AgentError)
    (h : researchStage (effectiveTopic rawTopic) = .error e) :
    sequential_workflow_a2a researchStage blogStage rawTopic = .researchFailed e
    ∧ sequential_workflow_a2a researchStage blogStage rawTopic =
        sequential_workflow_a2a researchStage blogStage2 rawTopic := by
  unfold sequential_workflow_a2a
  rw [h]
  exact ⟨rfl, rfl⟩

/-- Witness for C8: a research stage failing with the empty-result error
aborts the pipeline before any blog stage runs. -/
theorem C8_stage1_failure_aborts_witness :
    sequential_workflow_a2a (fun _ => .error .emptyResult) (fun _ => .ok "blog")
      "quantum computing" = .researchFailed .emptyResult ∧
    sequential_workflow_a2a (fun _ => .error .emptyResult) (fun _ => .ok "blog")
      "quantum computing" =
    sequential_workflow_a2a (fun _ => .error .emptyResult) (fun _ => .ok "other")
      "quantum computing" :=
  C8_stage1_failure_aborts (fun _ => .error .emptyResult) (fun _ => .ok "blog")
    (fun _ => .ok "other") "quantum computing" .emptyResult rfl

/-- Claim C9: a blob without the literal substring statusUpdate is
returned unchanged by parse_streaming_json — the split heuristic never
activates. -/
theorem C9_no_marker_identity (parse : String → Option Json) (blob : String)
    (h : strContains blob "statusUpdate" = false) :
    parse_streaming_json parse blob = blob := by
  simp [parse_streaming_json, h]

/-- Witness for C9 at a plain-text blob. -/
theorem C9_no_marker_identity_witness :
    strContains "hello world" "statusUpdate" = false ∧
    parse_streaming_json noParse "hello world" = "hello world" :=
  ⟨by decide, C9_no_marker_identity noParse "hello world" (by decide)⟩

/-- Claim C10 as stated is false: extract_query_from_message strips its
result, so the two text parts space-a and b produce "ab", not the plain
concatenation of the texts in order. -/
theorem C10_policy_counterexample :
    extract_query_from_message [.textPart " a", .textPart "b"] = "ab"
    ∧ " a" ++ "b" ≠ "ab" := ⟨by decide, by decide⟩

/-- Claim C10 amended: on a message whose parts are two or more text
parts, the deepsearch handler keeps only the last text (assignment
overwrites), the blogpost handler concatenates all texts in order, and
extract_query_from_message returns that concatenation stripped; the
first two policies disagree whenever the concatenation differs from the
last text. -/
theorem C10_policy_amended (ts : List String) (_hlen : 2 ≤ ts.length) :
    deepsearch_handler_query (ts.map MsgPart.textPart) = ts.getLastD ""
    ∧ blogpost_handler_content (ts.map MsgPart.textPart) = String.join ts
    ∧ extract_query_from_message (ts.map MsgPart.textPart) =
        pyStrip (String.join ts)
    ∧ (String.join ts ≠ ts.getLastD "" →
        blogpost_handler_content (ts.map MsgPart.textPart) ≠
          deepsearch_handler_query (ts.map MsgPart.textPart)) := by
  have h1 : deepsearch_handler_query (ts.map MsgPart.textPart) = ts.getLastD "" :=
    dsq_aux ts ""
  have h2b : blogpost_handler_content (ts.map MsgPart.textPart) =
      String.join ts := by
    show (ts.map MsgPart.textPart).foldl _ "" = String.join ts
    rw [bh_aux ts ""]
    show String.mk ([] ++ (String.join ts).data) = String.join ts
    rfl
  have h3 : extract_query_from_message (ts.map MsgPart.textPart) =
      pyStrip (String.join ts) := by
    show pyStrip ((ts.map MsgPart.textPart).foldl _ "") = pyStrip (String.join ts)
    rw [bh_aux ts ""]
    show pyStrip (String.mk ([] ++ (String.join ts).data)) = pyStrip (String.join ts)
    rfl
  exact ⟨h1, h2b, h3, fun hne => by rw [h1, h2b]; exact hne⟩

/-- Witness for the amended C10 at the two text parts "a" and "b": last
text versus full concatenation. -/
theorem C10_policy_amended_witness :
    deepsearch_handler_query [MsgPart.textPart "a", MsgPart.textPart "b"] = "b"
    ∧ blogpost_handler_content [MsgPart.textPart "a", MsgPart.textPart "b"] =
        "ab" := by
  have h := C10_policy_amended ["a", "b"] (by decide)
  exact ⟨h.1.trans (by decide), h.2.1.trans (by decide)⟩
